import Mathlib

/-!
Verification of the NoteTaker live-transcription bridge
(`src/vexa/services/vexa-bot/core/src/utils/browser.ts` and the bundled
node `DeepgramService`).  Samples and time offsets are modelled as
rationals, JS machine integers as `Nat`/`Int`.
-/

namespace NoteTaker

/-- JS `Math.round`: round half toward positive infinity, `⌊q + 1/2⌋`. -/
def jsRound (q : ℚ) : ℤ := ⌊q + 1/2⌋

/-- A write `a[i] = v` into a JS typed array: out-of-range (or negative)
indices are silently ignored. -/
def setIdx (l : List ℚ) (i : ℤ) (v : ℚ) : List ℚ :=
  if 0 ≤ i ∧ i.toNat < l.length then l.set i.toNat v else l

/-- The interior sample computed by the loop body of
`BrowserAudioService.resampleAudioData` (browser.ts lines 257-265):
`index = i * springFactor`, then linear interpolation between
`inputData[floor index]` and `inputData[ceil index]`. -/
def lerpAt (inputData : List ℚ) (springFactor : ℚ) (i : ℕ) : ℚ :=
  let index := (i : ℚ) * springFactor
  let leftIndex := ⌊index⌋
  let rightIndex := ⌈index⌉
  let fraction := index - (leftIndex : ℚ)
  inputData.getD leftIndex.toNat 0 +
    (inputData.getD rightIndex.toNat 0 - inputData.getD leftIndex.toNat 0) * fraction

/-- `targetLength` from browser.ts lines 248-250:
`Math.round(inputData.length * (targetSampleRate / sourceSampleRate))`. -/
def targetLength (n : ℕ) (sourceSampleRate targetSampleRate : ℚ) : ℤ :=
  jsRound ((n : ℚ) * (targetSampleRate / sourceSampleRate))

/-- `BrowserAudioService.resampleAudioData` (browser.ts lines 247-268).
A fresh zero-filled array of length `targetLength` is allocated, the two
endpoint cells are written (`resampledData[0] = inputData[0]`, then
`resampledData[targetLength-1] = inputData[inputData.length-1]`), and the
loop `for (i = 1; i < targetLength - 1; i++)` fills the interior by
linear interpolation.  Writes use JS typed-array semantics (`setIdx`). -/
def resampleAudioData (inputData : List ℚ) (sourceSampleRate targetSampleRate : ℚ) :
    List ℚ :=
  let tl := targetLength inputData.length sourceSampleRate targetSampleRate
  let springFactor := ((inputData.length : ℚ) - 1) / ((tl : ℚ) - 1)
  let r0 := List.replicate tl.toNat 0
  let r1 := setIdx r0 0 (inputData.getD 0 0)
  let r2 := setIdx r1 (tl - 1) (inputData.getD (inputData.length - 1) 0)
  (List.range' 1 (tl.toNat - 2)).foldl
    (fun acc (i : ℕ) => setIdx acc (Int.ofNat i) (lerpAt inputData springFactor i)) r2

/-! Bookkeeping lemmas about `setIdx` writes. -/

lemma ceil_via_floor (a : ℚ) : ⌈a⌉ = -⌊-a⌋ := by rw [Int.floor_neg, neg_neg]

lemma fract_eval (a : ℚ) : Int.fract a = a - ⌊a⌋ := rfl

lemma length_setIdx (l : List ℚ) (i : ℤ) (v : ℚ) : (setIdx l i v).length = l.length := by
  unfold setIdx; split <;> simp

lemma getD_setIdx_self (l : List ℚ) (i : ℤ) (v : ℚ) (h0 : 0 ≤ i)
    (hl : i.toNat < l.length) : (setIdx l i v).getD i.toNat 0 = v := by
  unfold setIdx
  rw [if_pos ⟨h0, hl⟩, List.getD_eq_getElem?_getD, List.getElem?_set_eq_of_lt _ hl]
  rfl

lemma getD_setIdx_ne (l : List ℚ) (i : ℤ) (v : ℚ) (j : ℕ) (hj : (j : ℤ) ≠ i) :
    (setIdx l i v).getD j 0 = l.getD j 0 := by
  unfold setIdx; split
  · next h =>
    rw [List.getD_eq_getElem?_getD, List.getElem?_set_ne (by omega),
      ← List.getD_eq_getElem?_getD]
  · rfl

lemma foldl_setIdx_length (f : ℕ → ℚ) (is : List ℕ) (l : List ℚ) :
    (is.foldl (fun acc i => setIdx acc (Int.ofNat i) (f i)) l).length = l.length := by
  induction is generalizing l with
  | nil => rfl
  | cons i is ih => rw [List.foldl_cons, ih, length_setIdx]

lemma foldl_setIdx_getD (f : ℕ → ℚ) (is : List ℕ) (l : List ℚ) (j : ℕ)
    (hnd : is.Nodup) (hj : j < l.length) :
    (is.foldl (fun acc i => setIdx acc (Int.ofNat i) (f i)) l).getD j 0 =
      if j ∈ is then f j else l.getD j 0 := by
  induction is generalizing l with
  | nil => simp
  | cons i is ih =>
    have hnd' := List.nodup_cons.mp hnd
    rw [List.foldl_cons, ih _ hnd'.2 (by rw [length_setIdx]; exact hj)]
    by_cases hmem : j ∈ is
    · have : j ∈ i :: is := List.mem_cons_of_mem _ hmem
      simp [hmem, this]
    · by_cases hij : j = i
      · subst hij
        rw [if_neg hmem, if_pos (List.mem_cons_self j is)]
        have h2 := getD_setIdx_self l (Int.ofNat j) (f j) (Int.ofNat_nonneg j)
          (by simpa using hj)
        simpa using h2
      · rw [getD_setIdx_ne _ _ _ _
          (by simp only [Int.ofNat_eq_natCast]; exact_mod_cast hij)]
        have : j ∉ i :: is := by
          intro hc
          rcases List.mem_cons.mp hc with h | h
          · exact hij h
          · exact hmem h
        simp [hmem, this]

/-- Full characterization of `resampleAudioData` when the computed target
length is at least 2: output length, both endpoints, and the interior
interpolation formula. -/
lemma resample_characterization (inputData : List ℚ) (sr tr : ℚ)
    (htl : 2 ≤ targetLength inputData.length sr tr) :
    (resampleAudioData inputData sr tr).length =
        (targetLength inputData.length sr tr).toNat ∧
    (resampleAudioData inputData sr tr).getD 0 0 = inputData.getD 0 0 ∧
    (resampleAudioData inputData sr tr).getD
        ((targetLength inputData.length sr tr).toNat - 1) 0 =
      inputData.getD (inputData.length - 1) 0 ∧
    ∀ j : ℕ, 1 ≤ j → j < (targetLength inputData.length sr tr).toNat - 1 →
      (resampleAudioData inputData sr tr).getD j 0 =
        lerpAt inputData
          (((inputData.length : ℚ) - 1) /
            (((targetLength inputData.length sr tr) : ℚ) - 1)) j := by
  set tl := targetLength inputData.length sr tr with htldef
  set T := tl.toNat with hTdef
  have hT : 2 ≤ T := by omega
  set sf := ((inputData.length : ℚ) - 1) / ((tl : ℚ) - 1) with hsfdef
  set v0 := inputData.getD 0 0 with hv0
  set vl := inputData.getD (inputData.length - 1) 0 with hvl
  have hmain : resampleAudioData inputData sr tr =
      (List.range' 1 (T - 2)).foldl
        (fun acc (i : ℕ) => setIdx acc (Int.ofNat i) (lerpAt inputData sf i))
        (setIdx (setIdx (List.replicate T 0) 0 v0) (tl - 1) vl) := by
    rw [resampleAudioData]
  have hlen2 : (setIdx (setIdx (List.replicate T 0) 0 v0) (tl - 1) vl).length = T := by
    rw [length_setIdx, length_setIdx, List.length_replicate]
  have hnd : (List.range' 1 (T - 2)).Nodup := List.nodup_range' 1 (T - 2)
  have hmem : ∀ j : ℕ, j ∈ List.range' 1 (T - 2) ↔ 1 ≤ j ∧ j < T - 1 := by
    intro j
    rw [List.mem_range'_1]
    omega
  have hfold : ∀ j : ℕ, j < T →
      (resampleAudioData inputData sr tr).getD j 0 =
        if j ∈ List.range' 1 (T - 2) then lerpAt inputData sf j
        else (setIdx (setIdx (List.replicate T 0) 0 v0) (tl - 1) vl).getD j 0 := by
    intro j hj
    rw [hmain]
    exact foldl_setIdx_getD _ _ _ _ hnd (by rw [hlen2]; exact hj)
  refine ⟨?_, ?_, ?_, ?_⟩
  · rw [hmain, foldl_setIdx_length, hlen2]
  · have hne := getD_setIdx_ne (setIdx (List.replicate T 0) 0 v0) (tl - 1) vl 0
      (by omega)
    have hself := getD_setIdx_self (List.replicate T 0) 0 v0 le_rfl
      (by rw [List.length_replicate]; omega)
    rw [hfold 0 (by omega), if_neg (by rw [hmem]; omega), hne]
    simpa using hself
  · have htn : (tl - 1).toNat = T - 1 := by omega
    have h1 := getD_setIdx_self (setIdx (List.replicate T 0) 0 v0) (tl - 1) vl
      (by omega) (by rw [length_setIdx, List.length_replicate]; omega)
    rw [hfold (T - 1) (by omega), if_neg (by rw [hmem]; omega), ← htn, h1]
  · intro j h1j hjT
    rw [hfold j (by omega), if_pos ((hmem j).mpr ⟨h1j, hjT⟩)]

/-- The interpolation at an integral position is the input sample itself. -/
lemma lerpAt_one (inputData : List ℚ) (j : ℕ) :
    lerpAt inputData 1 j = inputData.getD j 0 := by
  unfold lerpAt
  simp only [mul_one, Int.floor_natCast, Int.ceil_natCast, Int.toNat_natCast]
  ring_nf

/-- Claim C2 (counterexample): the claim fails as stated.  A 2-sample
block resampled from 48000 Hz to 16000 Hz has target length
`round(2/3) = 1`, so the single output cell — first written with the
first input sample — is then overwritten with the last input sample:
the first output sample differs from the first input sample. -/
theorem resample_first_sample_counterexample :
    2 ≤ ([0, 1] : List ℚ).length ∧
    resampleAudioData [0, 1] 48000 16000 = [1] ∧
    (resampleAudioData [0, 1] 48000 16000).getD 0 0 ≠
      ([0, 1] : List ℚ).getD 0 0 := by
  have h : resampleAudioData [0, 1] 48000 16000 = [1] := by
    norm_num [resampleAudioData, targetLength, jsRound, setIdx, lerpAt]
  refine ⟨by norm_num, h, ?_⟩
  rw [h]
  norm_num [List.getD_cons_zero]

/-- Claim C2 (amended): for every input block of length at least 2
whose computed target length `round(n * targetRate / sourceRate)` is at
least 2, the output length equals that target length, the first output
sample equals the first input sample, the last output sample equals the
last input sample, and each interior sample `j` is the linear
interpolation of the two nearest input samples at fractional position
`j * (n-1) / (targetLength-1)`. -/
theorem resample_output_spec (inputData : List ℚ) (sourceRate targetRate : ℚ)
    (hn : 2 ≤ inputData.length)
    (htl : 2 ≤ targetLength inputData.length sourceRate targetRate) :
    (resampleAudioData inputData sourceRate targetRate).length =
        (targetLength inputData.length sourceRate targetRate).toNat ∧
    (resampleAudioData inputData sourceRate targetRate).getD 0 0 =
        inputData.getD 0 0 ∧
    (resampleAudioData inputData sourceRate targetRate).getD
        ((targetLength inputData.length sourceRate targetRate).toNat - 1) 0 =
      inputData.getD (inputData.length - 1) 0 ∧
    ∀ j : ℕ, 1 ≤ j →
      j < (targetLength inputData.length sourceRate targetRate).toNat - 1 →
      (resampleAudioData inputData sourceRate targetRate).getD j 0 =
        lerpAt inputData
          (((inputData.length : ℚ) - 1) /
            (((targetLength inputData.length sourceRate targetRate) : ℚ) - 1)) j :=
  resample_characterization inputData sourceRate targetRate htl

/-- Claim C2 witness: a 3-sample block upsampled 1 Hz → 2 Hz has target
length 6 and the guaranteed endpoints. -/
theorem resample_output_spec_witness :
    (resampleAudioData [1, 3, 5] 1 2).length = 6 ∧
    (resampleAudioData [1, 3, 5] 1 2).getD 0 0 = 1 ∧
    (resampleAudioData [1, 3, 5] 1 2).getD 5 0 = 5 := by
  have htl6 : targetLength ([1, 3, 5] : List ℚ).length 1 2 = 6 := by
    norm_num [targetLength, jsRound]
  obtain ⟨h1, h2, h3, h4⟩ := resample_output_spec [1, 3, 5] 1 2 (by norm_num)
    (by rw [htl6]; norm_num)
  rw [htl6] at h1 h3
  refine ⟨by simpa using h1, by simpa using h2, by simpa using h3⟩

/-- Claim C10: when the source and target sample rates coincide (and are
nonzero), the resampler is the identity on blocks of length at least 2. -/
theorem resample_identity_when_rates_equal (inputData : List ℚ) (rate : ℚ)
    (hr : rate ≠ 0) (hn : 2 ≤ inputData.length) :
    resampleAudioData inputData rate rate = inputData := by
  have htl : targetLength inputData.length rate rate = inputData.length := by
    unfold targetLength jsRound
    rw [div_self hr, mul_one,
      show ((inputData.length : ℚ) + 1/2) = ((inputData.length : ℤ) : ℚ) + 1/2 by
        push_cast; ring,
      Int.floor_int_add]
    norm_num
  have htl2 : 2 ≤ targetLength inputData.length rate rate := by
    rw [htl]; exact_mod_cast hn
  obtain ⟨h1, h2, h3, h4⟩ := resample_characterization inputData rate rate htl2
  rw [htl] at h1 h3 h4
  simp only [Int.toNat_natCast] at h1 h3 h4
  have hsf : ((inputData.length : ℚ) - 1) / (((inputData.length : ℤ) : ℚ) - 1) = 1 := by
    push_cast
    refine div_self ?_
    have h2n : (2 : ℚ) ≤ (inputData.length : ℚ) := by exact_mod_cast hn
    linarith
  have hgetD : ∀ j, j < inputData.length →
      (resampleAudioData inputData rate rate).getD j 0 = inputData.getD j 0 := by
    intro j hj
    rcases Nat.lt_or_ge j 1 with hj0 | hj1
    · have : j = 0 := by omega
      subst this
      exact h2
    · rcases Nat.lt_or_ge j (inputData.length - 1) with hjmid | hjlast
      · rw [h4 j hj1 hjmid]
        rw [show (((inputData.length : ℕ) : ℤ) : ℚ) = (inputData.length : ℚ) by
          push_cast; ring] at hsf ⊢
        rw [hsf, lerpAt_one]
      · have : j = inputData.length - 1 := by omega
        subst this
        exact h3
  refine List.ext_getElem h1 ?_
  intro j hja hjb
  have h := hgetD j hjb
  rwa [List.getD_eq_getElem _ _ hja, List.getD_eq_getElem _ _ hjb] at h

/-- Claim C10 witness: identity resampling of a concrete block. -/
theorem resample_identity_witness :
    (3 : ℚ) ≠ 0 ∧ 2 ≤ ([5, 7] : List ℚ).length ∧
    resampleAudioData [5, 7] 3 3 = [5, 7] :=
  ⟨by norm_num, by norm_num,
    resample_identity_when_rates_equal [5, 7] 3 (by norm_num) (by norm_num)⟩

/-!
Segment normalization: the `socket.onmessage` handler of
`BrowserDeepgramService` (browser.ts lines 360-402 in `simpleConnection`
and, identically, lines 432-474 in `attemptConnection`), which is also
the body of the `LiveTranscriptionEvents.Transcript` handler of the node
`DeepgramService` (lines 639-682).
-/

/-- One entry of `alternatives[0].words`; `speaker` is present only when
the provider supplies a numeric per-word speaker index
(`typeof alt.words[0].speaker === 'number'`). -/
structure Word where
  speaker : Option ℤ
  deriving DecidableEq

/-- One transcription alternative: `transcript` may be absent
(`undefined`), `words` may be absent. -/
structure Alternative where
  transcript : Option String
  words : Option (List Word)
  deriving DecidableEq

/-- The `channel` member of a provider payload; `alternatives` may be
absent. -/
structure Channel where
  alternatives : Option (List Alternative)
  deriving DecidableEq

/-- A parsed provider recognition payload (`JSON.parse(event.data)`). -/
structure DeepgramData where
  channel : Option Channel
  is_final : Bool
  start : ℚ
  duration : ℚ
  deriving DecidableEq

/-- The canonical segment the handler builds (browser.ts lines 379-386):
`start` and `end` hold `toFixed(3)`-formatted offsets. -/
structure Segment where
  start : String
  «end» : String
  text : String
  completed : Bool
  language : Option String
  speaker : Option String
  deriving DecidableEq

/-- JS `String.prototype.trim`: strip leading and trailing whitespace. -/
def jsTrim (s : String) : String :=
  String.mk
    (((s.toList.dropWhile Char.isWhitespace).reverse.dropWhile
      Char.isWhitespace).reverse)

/-- The three zero-padded decimal digits of `m % 1000`, the fractional
part printed by `Number.prototype.toFixed(3)`. -/
def pad3 (m : ℕ) : String :=
  String.mk [Nat.digitChar (m / 100 % 10), Nat.digitChar (m / 10 % 10),
    Nat.digitChar (m % 10)]

/-- JS `Number.prototype.toFixed(3)` on the idealized rational value:
the sign, the integer part, a dot, and exactly three fractional digits,
with the magnitude rounded half-up at the third decimal. -/
def fmtFixed3 (q : ℚ) : String :=
  let n := (jsRound ((if q < 0 then -q else q) * 1000)).toNat
  (if q < 0 then "-" else "") ++ toString (n / 1000) ++ "." ++ pad3 (n % 1000)

/-- A string that ends in a dot followed by exactly three characters —
the "3 decimal places" shape of a `toFixed(3)` result. -/
def hasThreeDecimals (s : String) : Prop :=
  ∃ a b, s = a ++ "." ++ b ∧ b.length = 3

/-- The speaker index carried by the first word of an alternative, when
any (browser.ts lines 374-377). -/
def firstWordSpeaker (alt : Alternative) : Option ℤ :=
  match alt.words with
  | some (w :: _) => w.speaker
  | _ => none

/-- The result of one `onmessage` invocation: the segment handed to the
`onMessageCallback` (inside a `{uid, segments:[segment]}` message), if
any, and the list of segments pushed to the durable log
(`vexa_pushTranscriptToRedis` / `pushToRedis`). -/
structure HandlerResult where
  callback : Option Segment
  published : List Segment
  deriving DecidableEq

/-- The transcript-message handler shared by
`BrowserDeepgramService.simpleConnection.onmessage`,
`BrowserDeepgramService.attemptConnection.onmessage` and the node
`DeepgramService` `Transcript` listener.  `language` is
`botConfigData.language`; `canPush` models
`typeof window.vexa_pushTranscriptToRedis === 'function'` (always true
for the node service, whose only extra guard is inside `pushToRedis`). -/
def handleTranscriptMessage (language : Option String) (canPush : Bool)
    (data : DeepgramData) : HandlerResult :=
  match data.channel with
  | none => ⟨none, []⟩
  | some channel =>
    match channel.alternatives with
    | none => ⟨none, []⟩
    | some alternatives =>
      match alternatives.head? with
      | none => ⟨none, []⟩
      | some alt =>
        match alt.transcript with
        | none => ⟨none, []⟩
        | some text =>
          if text = "" then ⟨none, []⟩
          else if jsTrim text = "" then ⟨none, []⟩
          else
            let isFinal := data.is_final
            let start := data.start
            let endOffset := start + data.duration
            let speaker :=
              (firstWordSpeaker alt).map (fun k => "Speaker " ++ toString k)
            let segment : Segment :=
              ⟨fmtFixed3 start, fmtFixed3 endOffset, text, isFinal, language,
                speaker⟩
            ⟨some segment, if isFinal && canPush then [segment] else []⟩

/-- Every `toFixed(3)`-formatted offset has exactly three characters
after the final dot. -/
lemma fmtFixed3_hasThreeDecimals (q : ℚ) : hasThreeDecimals (fmtFixed3 q) :=
  ⟨(if q < 0 then "-" else "") ++
      toString ((jsRound ((if q < 0 then -q else q) * 1000)).toNat / 1000),
    pad3 ((jsRound ((if q < 0 then -q else q) * 1000)).toNat % 1000), rfl, rfl⟩

/-- Evaluation helpers for the two offsets of the standard scenario
(`start = 1.0`, `duration = 0.5`). -/
lemma fmtFixed3_one : fmtFixed3 1 = "1.000" := by
  unfold fmtFixed3 jsRound
  norm_num
  decide

lemma fmtFixed3_three_halves : fmtFixed3 (1 + 1/2) = "1.500" := by
  unfold fmtFixed3 jsRound
  norm_num
  decide

/-- Claim C1: the durable-log push (`vexa_pushTranscriptToRedis` /
`pushToRedis`) happens only for payloads with `is_final = true`, and
every published segment carries `completed = true`; no interim segment
ever reaches the durable log. -/
theorem publish_only_final (language : Option String) (canPush : Bool)
    (data : DeepgramData) (seg : Segment)
    (hmem : seg ∈ (handleTranscriptMessage language canPush data).published) :
    data.is_final = true ∧ seg.completed = true := by
  unfold handleTranscriptMessage at hmem
  repeat' split at hmem
  all_goals simp_all

/-- Claim C1 witness: a concrete final payload is published, with the
conclusions drawn through the theorem. -/
theorem publish_only_final_witness :
    (⟨"1.000", "1.500", "hello world", true, none, some "Speaker 1"⟩ : Segment) ∈
      (handleTranscriptMessage none true
        ⟨some ⟨some [⟨some "hello world", some [⟨some 1⟩]⟩]⟩, true, 1,
          1/2⟩).published ∧
    (⟨some ⟨some [⟨some "hello world", some [⟨some 1⟩]⟩]⟩, true, 1,
        (1/2 : ℚ)⟩ : DeepgramData).is_final = true ∧
    (⟨"1.000", "1.500", "hello world", true, none,
        some "Speaker 1"⟩ : Segment).completed = true := by
  have heval : handleTranscriptMessage none true
      ⟨some ⟨some [⟨some "hello world", some [⟨some 1⟩]⟩]⟩, true, 1, 1/2⟩ =
      ⟨some ⟨"1.000", "1.500", "hello world", true, none, some "Speaker 1"⟩,
        [⟨"1.000", "1.500", "hello world", true, none, some "Speaker 1"⟩]⟩ := by
    simp only [handleTranscriptMessage, firstWordSpeaker, List.head?]
    rw [if_neg (by decide), if_neg (by decide), fmtFixed3_one, fmtFixed3_three_halves]
    decide
  have hmem : (⟨"1.000", "1.500", "hello world", true, none,
      some "Speaker 1"⟩ : Segment) ∈
      (handleTranscriptMessage none true
        ⟨some ⟨some [⟨some "hello world", some [⟨some 1⟩]⟩]⟩, true, 1,
          1/2⟩).published := by
    rw [heval]
    exact List.mem_singleton.mpr rfl
  exact ⟨hmem, publish_only_final none true _ _ hmem⟩

/-- Claim C4: a payload whose first alternative has an absent, empty or
whitespace-only transcript produces no callback segment and publishes
nothing. -/
theorem empty_transcript_dropped (language : Option String) (canPush : Bool)
    (data : DeepgramData) (channel : Channel) (alternatives : List Alternative)
    (alt : Alternative)
    (hch : data.channel = some channel)
    (halts : channel.alternatives = some alternatives)
    (hhead : alternatives.head? = some alt)
    (htext : alt.transcript = none ∨
      ∃ t, alt.transcript = some t ∧ jsTrim t = "") :
    handleTranscriptMessage language canPush data = ⟨none, []⟩ := by
  obtain ⟨dch, isf, dst, ddur⟩ := data
  obtain ⟨chalts⟩ := channel
  dsimp only at hch halts
  subst hch
  subst halts
  obtain _ | ⟨a, l⟩ := alternatives
  · exact absurd hhead (by simp)
  · simp only [List.head?_cons, Option.some_inj] at hhead
    subst hhead
    rcases htext with h | ⟨t, ht, htrim⟩
    · simp only [handleTranscriptMessage, List.head?_cons, h]
    · simp only [handleTranscriptMessage, List.head?_cons, ht]
      by_cases he : t = ""
      · rw [if_pos he]
      · rw [if_neg he, if_pos htrim]

/-- Claim C4 witness: a whitespace-only transcript is dropped. -/
theorem empty_transcript_dropped_witness :
    handleTranscriptMessage none true
      ⟨some ⟨some [⟨some "   ", none⟩]⟩, true, 0, 0⟩ = ⟨none, []⟩ :=
  empty_transcript_dropped none true _ _ _ _ rfl rfl rfl
    (Or.inr ⟨"   ", rfl, by decide⟩)

/-- Claim C8: for a payload with usable transcript text, the normalized
segment stores `toFixed(3)`-formatted offsets, its end offset is the
formatted value of `start + duration`, both offsets have exactly three
decimal places, and the speaker label is "Speaker k" exactly when the
first word of the alternative carries the numeric index `k`, absent
otherwise. -/
theorem normalized_segment_shape (language : Option String) (canPush : Bool)
    (data : DeepgramData) (channel : Channel) (alternatives : List Alternative)
    (alt : Alternative) (text : String)
    (hch : data.channel = some channel)
    (halts : channel.alternatives = some alternatives)
    (hhead : alternatives.head? = some alt)
    (htext : alt.transcript = some text)
    (hne : jsTrim text ≠ "") :
    ∃ seg : Segment,
      (handleTranscriptMessage language canPush data).callback = some seg ∧
      seg.start = fmtFixed3 data.start ∧
      seg.«end» = fmtFixed3 (data.start + data.duration) ∧
      hasThreeDecimals seg.start ∧
      hasThreeDecimals seg.«end» ∧
      (∀ k : ℤ, firstWordSpeaker alt = some k →
        seg.speaker = some ("Speaker " ++ toString k)) ∧
      (firstWordSpeaker alt = none → seg.speaker = none) := by
  have hE : text ≠ "" := by
    intro h
    subst h
    exact hne (by decide)
  obtain ⟨dch, isf, dst, ddur⟩ := data
  obtain ⟨chalts⟩ := channel
  dsimp only at hch halts
  subst hch
  subst halts
  obtain _ | ⟨a, l⟩ := alternatives
  · exact absurd hhead (by simp)
  · simp only [List.head?_cons, Option.some_inj] at hhead
    subst hhead
    simp only [handleTranscriptMessage, List.head?_cons, htext, if_neg hE,
      if_neg hne]
    refine ⟨_, rfl, rfl, rfl, fmtFixed3_hasThreeDecimals _,
      fmtFixed3_hasThreeDecimals _, ?_, ?_⟩
    · intro k hk
      simp [hk]
    · intro hk
      simp [hk]

/-- Claim C8 witness: the standard scenario
(`transcript="hello world"`, first word speaker index 1, `start=1.0`,
`duration=0.5`) yields offsets "1.000"/"1.500" and label "Speaker 1". -/
theorem normalized_segment_shape_witness :
    ∃ seg : Segment,
      (handleTranscriptMessage none true
        ⟨some ⟨some [⟨some "hello world", some [⟨some 1⟩]⟩]⟩, true, 1,
          1/2⟩).callback = some seg ∧
      seg.start = "1.000" ∧ seg.«end» = "1.500" ∧
      hasThreeDecimals seg.start ∧ hasThreeDecimals seg.«end» ∧
      seg.speaker = some "Speaker 1" := by
  obtain ⟨seg, hcb, hs, he, h3s, h3e, hspk, _⟩ :=
    normalized_segment_shape none true
      ⟨some ⟨some [⟨some "hello world", some [⟨some 1⟩]⟩]⟩, true, 1, 1/2⟩
      _ _ _ "hello world" rfl rfl rfl rfl (by decide)
  refine ⟨seg, hcb, ?_, ?_, h3s, h3e, ?_⟩
  · rw [hs]
    exact fmtFixed3_one
  · rw [he]
    exact fmtFixed3_three_halves
  · exact hspk 1 rfl

/-!
Audio transmission: `BrowserDeepgramService.sendAudioData`
(browser.ts lines 519-532).
-/

/-- `WebSocket.OPEN`. -/
def WS_OPEN_STATE : ℕ := 1

/-- The socket as `sendAudioData` observes it: its `readyState`, and
whether the underlying `socket.send` call throws (`sendFails`). -/
structure Socket where
  readyState : ℕ
  sendFails : Bool
  deriving DecidableEq

/-- JS truncation toward zero (float-to-integer conversion on storing
into an `Int16Array`). -/
def jsTrunc (q : ℚ) : ℤ := if q < 0 then -⌊-q⌋ else ⌊q⌋

/-- One sample of the Float32-to-Int16 conversion (browser.ts lines
523-526): clamp to `[-1, 1]`, then scale by `0x8000` for negative and
`0x7FFF` for nonnegative samples. -/
def floatToPCM (s : ℚ) : ℤ :=
  let c := max (-1) (min 1 s)
  if c < 0 then jsTrunc (c * 32768) else jsTrunc (c * 32767)

/-- `BrowserDeepgramService.sendAudioData`: returns `false` when the
socket is `null` or not open; otherwise converts the frame and hands it
to `socket.send` inside `try/catch`, returning `false` (and delivering
nothing) when the write throws.  The second component is the list of
frames actually handed to the socket; there is no queue. -/
def sendAudioData (socket : Option Socket) (audioData : List ℚ) :
    Bool × List (List ℤ) :=
  match socket with
  | none => (false, [])
  | some s =>
    if s.readyState ≠ WS_OPEN_STATE then (false, [])
    else
      let pcm := audioData.map floatToPCM
      if s.sendFails then (false, [])
      else (true, [pcm])

/-- Claim C5: `sendAudioData` is a total function (it never throws); it
returns `true` exactly when the socket exists, is open, and the write
succeeds; a `false` result delivers no frame; a `true` result delivers
exactly the converted frame. -/
theorem sendAudioData_spec (socket : Option Socket) (audioData : List ℚ) :
    ((sendAudioData socket audioData).1 = true ↔
      ∃ s, socket = some s ∧ s.readyState = WS_OPEN_STATE ∧
        s.sendFails = false) ∧
    ((sendAudioData socket audioData).1 = false →
      (sendAudioData socket audioData).2 = []) ∧
    ((sendAudioData socket audioData).1 = true →
      (sendAudioData socket audioData).2 = [audioData.map floatToPCM]) := by
  match socket with
  | none =>
    refine ⟨⟨fun h => by simp [sendAudioData] at h, ?_⟩, fun _ => rfl,
      fun h => by simp [sendAudioData] at h⟩
    rintro ⟨s, hs, _⟩
    cases hs
  | some s =>
    by_cases hrs : s.readyState = WS_OPEN_STATE
    · by_cases hsf : s.sendFails
      · refine ⟨⟨fun h => ?_, ?_⟩, fun _ => ?_, fun h => ?_⟩
        · simp [sendAudioData, hrs, hsf] at h
        · rintro ⟨s', hs', _, hsf'⟩
          cases hs'
          rw [hsf] at hsf'
          cases hsf'
        · simp [sendAudioData, hrs, hsf]
        · simp [sendAudioData, hrs, hsf] at h
      · refine ⟨⟨fun _ => ⟨s, rfl, hrs, by simpa using hsf⟩, fun _ => ?_⟩,
          fun h => ?_, fun _ => ?_⟩
        · simp [sendAudioData, hrs, hsf]
        · simp [sendAudioData, hrs, hsf] at h
        · simp [sendAudioData, hrs, hsf]
    · refine ⟨⟨fun h => ?_, ?_⟩, fun _ => ?_, fun h => ?_⟩
      · simp [sendAudioData, hrs] at h
      · rintro ⟨s', hs', hrs', _⟩
        cases hs'
        exact (hrs hrs').elim
      · simp [sendAudioData, hrs]
      · simp [sendAudioData, hrs] at h

/-- Claim C5 witness: an open, healthy socket accepts a frame; the
converted PCM sample of 1/2 is 16383. -/
theorem sendAudioData_spec_witness :
    (sendAudioData (some ⟨1, false⟩) [1/2]).1 = true ∧
    (sendAudioData (some ⟨1, false⟩) [1/2]).2 = [[16383]] := by
  have h := (sendAudioData_spec (some ⟨1, false⟩) [1/2]).2.2
  have htrue : (sendAudioData (some ⟨1, false⟩) [1/2]).1 = true := by
    simp [sendAudioData, WS_OPEN_STATE]
  refine ⟨htrue, ?_⟩
  rw [h htrue]
  simp only [List.map_cons, List.map_nil]
  rw [show floatToPCM (1/2) = 16383 by unfold floatToPCM jsTrunc; norm_num]

/-!
The resilient ("stubborn") mode of `BrowserDeepgramService`
(browser.ts lines 302-556): socket lifecycle, the single reconnect
timer, the retry counter, and the session identifier.  The mutable
fields of the service become a `ClientState`; each socket/timer/API
event becomes one transition.  `generateBrowserUUID` is modelled as an
injective supply (`freshCounter`), realizing the claim's assumption
that the identifier generator never repeats a value.
-/

/-- The mutable state of a `BrowserDeepgramService` instance in
stubborn mode.  `socket = none` models `this.socket === null`;
`socket = some b` models a socket object with `b = (readyState ===
OPEN)`.  `reconnectPending` counts live reconnect timers (the
`this.reconnectInterval` handle), and `pendingDelay` records the delay
the pending timer was scheduled with. -/
structure ClientState where
  socket : Option Bool
  isServerReady : Bool
  currentUid : Option ℕ
  reconnectPending : ℕ
  pendingDelay : Option ℚ
  retryCount : ℕ
  isManualReconnect : Bool
  freshCounter : ℕ
  deriving DecidableEq

/-- `this.retryDelayMs = 2000`. -/
def retryDelayMs : ℚ := 2000

/-- The delay computed by `startStubbornReconnection` (browser.ts line
501): `Math.min(retryDelayMs * 1.5 ** Math.min(retryCount, 10), 10000)`. -/
def reconnectDelay (retryCount : ℕ) : ℚ :=
  min (retryDelayMs * (3 / 2) ^ min retryCount 10) 10000

/-- `startStubbornReconnection` (browser.ts lines 499-509): a no-op
when a timer is already pending (`if (this.reconnectInterval) return`),
otherwise schedules exactly one timer with the backoff delay. -/
def startStubbornReconnection (s : ClientState) : ClientState :=
  if s.reconnectPending ≠ 0 then s
  else { s with reconnectPending := 1,
                pendingDelay := some (reconnectDelay s.retryCount) }

/-- `clearReconnectInterval` (browser.ts lines 511-516). -/
def clearReconnectInterval (s : ClientState) : ClientState :=
  { s with reconnectPending := 0, pendingDelay := none }

/-- `attemptConnection` (browser.ts lines 414-497) up to its first
asynchronous event: either the `WebSocket` constructor succeeds and
`this.socket` holds a connecting socket, or it throws and
`startStubbornReconnection` runs (line 494). -/
def attemptConnection (ctorOk : Bool) (s : ClientState) : ClientState :=
  if ctorOk then { s with socket := some false }
  else startStubbornReconnection s

/-- The `socket.onopen` handler (browser.ts lines 421-430): reset the
retry counter, cancel any pending reconnect timer, mark the server
ready, and mint a fresh session identifier. -/
def onOpenStep (s : ClientState) : ClientState :=
  { s with socket := some true,
           isServerReady := true,
           reconnectPending := 0,
           pendingDelay := none,
           retryCount := 0,
           currentUid := some s.freshCounter,
           freshCounter := s.freshCounter + 1 }

/-- The `socket.onclose` handler (browser.ts lines 481-490). -/
def onCloseStep (s : ClientState) : ClientState :=
  let s1 := { s with isServerReady := false, socket := none }
  if s1.isManualReconnect then { s1 with isManualReconnect := false }
  else startStubbornReconnection s1

/-- The `socket.onerror` handler (browser.ts lines 476-479). -/
def onErrorStep (s : ClientState) : ClientState :=
  if s.isManualReconnect then s else startStubbornReconnection s

/-- The reconnect timer callback (browser.ts lines 502-508): null the
handle, increment the retry counter, and reattempt the connection
unless the socket is already open. -/
def timerFireStep (ctorOk : Bool) (s : ClientState) : ClientState :=
  let s1 := { s with reconnectPending := 0, pendingDelay := none,
                     retryCount := s.retryCount + 1 }
  if s1.socket = some true then s1 else attemptConnection ctorOk s1

/-- `close()` (browser.ts lines 543-550): cancel any pending timer,
drop the session identifier, and close and null the socket. -/
def closeStep (s : ClientState) : ClientState :=
  let s1 := clearReconnectInterval s
  let s2 := { s1 with currentUid := none }
  match s2.socket with
  | some _ => { s2 with socket := none }
  | none => s2

/-- `closeForReconfigure()` (browser.ts lines 552-555): set the manual
flag, then `close()`. -/
def closeForReconfigure (s : ClientState) : ClientState :=
  closeStep { s with isManualReconnect := true }

/-- The events driving a stubborn-mode client. -/
inductive ClientEvent where
  | connectCall (ctorOk : Bool)
  | openEvent
  | closeEvent
  | errorEvent
  | timerFire (ctorOk : Bool)
  | closeCall
  | reconfigureCall
  deriving DecidableEq

/-- One transition of the client. -/
def step (s : ClientState) : ClientEvent → ClientState
  | ClientEvent.connectCall ok => attemptConnection ok s
  | ClientEvent.openEvent => onOpenStep s
  | ClientEvent.closeEvent => onCloseStep s
  | ClientEvent.errorEvent => onErrorStep s
  | ClientEvent.timerFire ok => timerFireStep ok s
  | ClientEvent.closeCall => closeStep s
  | ClientEvent.reconfigureCall => closeForReconfigure s

/-- The state of a freshly constructed service. -/
def initState : ClientState := ⟨none, false, none, 0, none, 0, false, 0⟩

/-- The state after a sequence of events from construction. -/
def runEvents (evs : List ClientEvent) : ClientState :=
  evs.foldl step initState

lemma pending_startStubborn (s : ClientState) (h : s.reconnectPending ≤ 1) :
    (startStubbornReconnection s).reconnectPending ≤ 1 := by
  unfold startStubbornReconnection
  split_ifs
  · exact h
  · simp

lemma pending_le_one_step (s : ClientState) (e : ClientEvent)
    (h : s.reconnectPending ≤ 1) : (step s e).reconnectPending ≤ 1 := by
  cases e with
  | connectCall ok =>
    simp only [step]
    unfold attemptConnection
    split_ifs
    · exact h
    · exact pending_startStubborn s h
  | openEvent => simp [step, onOpenStep]
  | closeEvent =>
    simp only [step]
    unfold onCloseStep
    dsimp only
    split_ifs
    · simpa using h
    · exact pending_startStubborn _ (by simpa using h)
  | errorEvent =>
    simp only [step]
    unfold onErrorStep
    split_ifs
    · exact h
    · exact pending_startStubborn _ h
  | timerFire ok =>
    simp only [step]
    unfold timerFireStep attemptConnection
    dsimp only
    split_ifs <;> simp [startStubbornReconnection]
  | closeCall =>
    simp only [step]
    unfold closeStep clearReconnectInterval
    dsimp only
    split <;> simp
  | reconfigureCall =>
    simp only [step]
    unfold closeForReconfigure closeStep clearReconnectInterval
    dsimp only
    split <;> simp

lemma pending_le_one_foldl (evs : List ClientEvent) (s : ClientState)
    (h : s.reconnectPending ≤ 1) :
    (evs.foldl step s).reconnectPending ≤ 1 := by
  induction evs generalizing s with
  | nil => exact h
  | cons e evs ih => exact ih _ (pending_le_one_step s e h)

lemma fresh_mono_step (s : ClientState) (e : ClientEvent) :
    s.freshCounter ≤ (step s e).freshCounter := by
  cases e with
  | connectCall ok =>
    simp only [step]
    unfold attemptConnection startStubbornReconnection
    split_ifs <;> simp
  | openEvent => simp [step, onOpenStep]
  | closeEvent =>
    simp only [step]
    unfold onCloseStep startStubbornReconnection
    dsimp only
    split_ifs <;> simp
  | errorEvent =>
    simp only [step]
    unfold onErrorStep startStubbornReconnection
    split_ifs <;> simp
  | timerFire ok =>
    simp only [step]
    unfold timerFireStep attemptConnection startStubbornReconnection
    dsimp only
    split_ifs <;> simp
  | closeCall =>
    simp only [step]
    unfold closeStep clearReconnectInterval
    dsimp only
    split <;> simp
  | reconfigureCall =>
    simp only [step]
    unfold closeForReconfigure closeStep clearReconnectInterval
    dsimp only
    split <;> simp

lemma fresh_mono_foldl (evs : List ClientEvent) (s : ClientState) :
    s.freshCounter ≤ (evs.foldl step s).freshCounter := by
  induction evs generalizing s with
  | nil => exact le_rfl
  | cons e evs ih => exact le_trans (fresh_mono_step s e) (ih _)

/-- Every session identifier currently held was drawn from the supply. -/
def UidInv (s : ClientState) : Prop :=
  ∀ u : ℕ, s.currentUid = some u → u < s.freshCounter

lemma uidInv_startStubborn (s : ClientState) (h : UidInv s) :
    UidInv (startStubbornReconnection s) := by
  unfold startStubbornReconnection
  split_ifs
  · exact h
  · intro u hu
    exact h u hu

lemma uidInv_step (s : ClientState) (e : ClientEvent) (h : UidInv s) :
    UidInv (step s e) := by
  cases e with
  | connectCall ok =>
    simp only [step]
    unfold attemptConnection
    split_ifs
    · intro u hu
      exact h u hu
    · exact uidInv_startStubborn s h
  | openEvent =>
    intro u hu
    simp only [step, onOpenStep] at hu ⊢
    simp only [Option.some_inj] at hu
    omega
  | closeEvent =>
    simp only [step]
    unfold onCloseStep
    dsimp only
    split_ifs
    · intro u hu
      exact h u hu
    · exact uidInv_startStubborn _ (fun u hu => h u hu)
  | errorEvent =>
    simp only [step]
    unfold onErrorStep
    split_ifs
    · exact h
    · exact uidInv_startStubborn _ h
  | timerFire ok =>
    simp only [step]
    unfold timerFireStep attemptConnection
    dsimp only
    split_ifs
    · intro u hu
      exact h u hu
    · intro u hu
      exact h u hu
    · exact uidInv_startStubborn _ (fun u hu => h u hu)
  | closeCall =>
    simp only [step]
    unfold closeStep clearReconnectInterval
    dsimp only
    split <;> intro u hu <;> simp_all
  | reconfigureCall =>
    simp only [step]
    unfold closeForReconfigure closeStep clearReconnectInterval
    dsimp only
    split <;> intro u hu <;> simp_all

lemma uidInv_foldl (evs : List ClientEvent) (s : ClientState) (h : UidInv s) :
    UidInv (evs.foldl step s) := by
  induction evs generalizing s with
  | nil => exact h
  | cons e evs ih => exact ih _ (uidInv_step s e h)

lemma uidInv_run (evs : List ClientEvent) : UidInv (runEvents evs) :=
  uidInv_foldl evs initState (fun u hu => by simp [initState] at hu)

/-- Claim C3: the scheduled reconnect delay is
`min(2000 * 1.5^a, 10000)` for attempt counts `a ≤ 10` and exactly
10000 ms for `a > 10`; `startStubbornReconnection` schedules with that
delay; the attempt counter is incremented once per fired retry and
reset to zero on a successful socket open. -/
theorem reconnect_backoff_spec :
    (∀ a : ℕ, a ≤ 10 → reconnectDelay a = min (2000 * (3/2 : ℚ) ^ a) 10000) ∧
    (∀ a : ℕ, 10 < a → reconnectDelay a = 10000) ∧
    (∀ s : ClientState, s.reconnectPending = 0 →
      (startStubbornReconnection s).pendingDelay =
        some (reconnectDelay s.retryCount)) ∧
    (∀ (s : ClientState) (ok : Bool),
      (step s (ClientEvent.timerFire ok)).retryCount = s.retryCount + 1) ∧
    (∀ s : ClientState, (step s ClientEvent.openEvent).retryCount = 0) := by
  refine ⟨?_, ?_, ?_, ?_, ?_⟩
  · intro a ha
    unfold reconnectDelay retryDelayMs
    rw [Nat.min_eq_left ha]
  · intro a ha
    unfold reconnectDelay retryDelayMs
    rw [Nat.min_eq_right (le_of_lt ha), min_eq_right]
    norm_num
  · intro s h
    unfold startStubbornReconnection
    rw [if_neg (by omega)]
  · intro s ok
    simp only [step]
    unfold timerFireStep attemptConnection startStubbornReconnection
    dsimp only
    split_ifs <;> rfl
  · intro s
    simp [step, onOpenStep]

/-- Claim C3 witness: concrete delays — 6750 ms at attempt 3, capped at
10000 ms for attempt 12 — and a concrete scheduling. -/
theorem reconnect_backoff_witness :
    (reconnectDelay 3 = min (2000 * (3/2 : ℚ) ^ 3) 10000 ∧
      reconnectDelay 3 = 6750) ∧
    reconnectDelay 12 = 10000 ∧
    (startStubbornReconnection initState).pendingDelay =
      some (reconnectDelay 0) := by
  refine ⟨⟨reconnect_backoff_spec.1 3 (by norm_num), ?_⟩,
    reconnect_backoff_spec.2.1 12 (by norm_num),
    reconnect_backoff_spec.2.2.1 initState rfl⟩
  rw [reconnect_backoff_spec.1 3 (by norm_num)]
  norm_num

/-- Claim C7: at most one reconnect timer is ever pending in any
reachable state; scheduling while one is pending is a no-op; a pending
timer is cancelled by `close()`, by `closeForReconfigure()`, and by a
successful socket open. -/
theorem single_reconnect_timer :
    (∀ evs : List ClientEvent, (runEvents evs).reconnectPending ≤ 1) ∧
    (∀ s : ClientState, s.reconnectPending ≠ 0 →
      startStubbornReconnection s = s) ∧
    (∀ s : ClientState, (closeStep s).reconnectPending = 0) ∧
    (∀ s : ClientState, (closeForReconfigure s).reconnectPending = 0) ∧
    (∀ s : ClientState, (step s ClientEvent.openEvent).reconnectPending = 0) := by
  refine ⟨?_, ?_, ?_, ?_, ?_⟩
  · intro evs
    exact pending_le_one_foldl evs initState (by simp [initState])
  · intro s h
    unfold startStubbornReconnection
    rw [if_pos h]
  · intro s
    unfold closeStep clearReconnectInterval
    dsimp only
    split <;> rfl
  · intro s
    unfold closeForReconfigure closeStep clearReconnectInterval
    dsimp only
    split <;> rfl
  · intro s
    simp [step, onOpenStep]

/-- Claim C7 witness: after two consecutive error events only one timer
is pending, and rescheduling in that state is a no-op. -/
theorem single_reconnect_timer_witness :
    (runEvents [ClientEvent.errorEvent, ClientEvent.errorEvent]).reconnectPending ≤ 1 ∧
    startStubbornReconnection (runEvents [ClientEvent.errorEvent]) =
      runEvents [ClientEvent.errorEvent] := by
  refine ⟨single_reconnect_timer.1 _, single_reconnect_timer.2.1 _ ?_⟩
  show (1 : ℕ) ≠ 0
  omega

/-- Claim C6: every socket-open event mints a fresh session identifier
drawn from the injective supply, so the identifier in effect after a
reconnect differs from the identifier in effect before the preceding
close. -/
theorem fresh_session_id_on_open :
    (∀ s : ClientState,
      (step s ClientEvent.openEvent).currentUid = some s.freshCounter) ∧
    (∀ (evs1 evs2 : List ClientEvent) (u1 u2 : ℕ),
      (runEvents evs1).currentUid = some u1 →
      (runEvents (evs1 ++ evs2 ++ [ClientEvent.openEvent])).currentUid = some u2 →
      u1 ≠ u2) := by
  constructor
  · intro s
    simp [step, onOpenStep]
  · intro evs1 evs2 u1 u2 h1 h2
    have hu1 : u1 < (runEvents evs1).freshCounter := uidInv_run evs1 u1 h1
    have hrw : runEvents (evs1 ++ evs2 ++ [ClientEvent.openEvent]) =
        step ((evs1 ++ evs2).foldl step initState) ClientEvent.openEvent := by
      unfold runEvents
      rw [List.foldl_append]
      rfl
    have hmid : (runEvents evs1).freshCounter ≤
        ((evs1 ++ evs2).foldl step initState).freshCounter := by
      unfold runEvents
      rw [List.foldl_append]
      exact fresh_mono_foldl evs2 _
    rw [hrw] at h2
    simp only [step, onOpenStep, Option.some_inj] at h2
    omega

/-- Claim C6 witness: connect, open (uid 0), unexpected close, timed
reconnect, open again — the new uid 1 differs from the old uid 0. -/
theorem fresh_session_id_witness :
    (runEvents [ClientEvent.connectCall true, ClientEvent.openEvent]).currentUid =
      some 0 ∧
    (runEvents ([ClientEvent.connectCall true, ClientEvent.openEvent] ++
      [ClientEvent.closeEvent, ClientEvent.timerFire true] ++
      [ClientEvent.openEvent])).currentUid = some 1 ∧
    (0 : ℕ) ≠ 1 := by
  have h1 : (runEvents [ClientEvent.connectCall true,
      ClientEvent.openEvent]).currentUid = some 0 := rfl
  have h2 : (runEvents ([ClientEvent.connectCall true, ClientEvent.openEvent] ++
      [ClientEvent.closeEvent, ClientEvent.timerFire true] ++
      [ClientEvent.openEvent])).currentUid = some 1 := rfl
  exact ⟨h1, h2, fresh_session_id_on_open.2 _ _ 0 1 h1 h2⟩

/-!
Teardown of the node `DeepgramService` (the `cleanup()` implementation
bundled after browser.ts, lines 772-779 of the concatenated source):

    async cleanup() {
        if (this.connection) {
            this.connection.client.close();
        }
        if (this.redisClient && this.redisClient.isOpen) {
            await this.redisClient.quit();
        }
    }

Note that `this.connection` is never nulled, and `this.connection.client`
is dereferenced without a null check even though `initialize()` creates
`this.connection = { client: null, ... }` before any connect.
-/

/-- Resources a teardown call releases. -/
inductive TeardownEffect where
  | clientClose
  | redisQuit
  deriving DecidableEq

/-- The `this.connection` record of the node service:
`client` is `null` between `initialize()` and a successful
`connectToDeepgram()`. -/
structure NodeConnection where
  client : Option Unit
  deriving DecidableEq

/-- The fields of the node service that `cleanup()` touches:
`redisOpen` models `this.redisClient && this.redisClient.isOpen`. -/
structure NodeServiceState where
  connection : Option NodeConnection
  redisOpen : Bool
  deriving DecidableEq

/-- The runtime error `cleanup()` can raise. -/
inductive CleanupError where
  | nullClientClose
  deriving DecidableEq

/-- `DeepgramService.cleanup` (lines 772-779): dereferences
`connection.client` whenever `connection` exists — a `TypeError` when
`client` is null — and never clears `connection`; quitting Redis leaves
`isOpen` false. -/
def cleanup (s : NodeServiceState) :
    Except CleanupError (NodeServiceState × List TeardownEffect) :=
  match s.connection with
  | some conn =>
    match conn.client with
    | none => Except.error CleanupError.nullClientClose
    | some _ =>
      if s.redisOpen then
        Except.ok ({ s with redisOpen := false },
          [TeardownEffect.clientClose, TeardownEffect.redisQuit])
      else Except.ok (s, [TeardownEffect.clientClose])
  | none =>
    if s.redisOpen then
      Except.ok ({ s with redisOpen := false }, [TeardownEffect.redisQuit])
    else Except.ok (s, [])

/-- Claim C9 (refuted by the code): `cleanup()` is not idempotent and
not safe from every state.  From the state `initialize()` leaves when no
connect has happened (`connection.client = null`) the very first call
throws; from a connected state the first call does not clear the
connection handle, so a second call releases the client again instead
of being a no-op. -/
theorem cleanup_not_idempotent :
    cleanup ⟨some ⟨none⟩, true⟩ = Except.error CleanupError.nullClientClose ∧
    cleanup ⟨some ⟨some ()⟩, true⟩ =
      Except.ok (⟨some ⟨some ()⟩, false⟩,
        [TeardownEffect.clientClose, TeardownEffect.redisQuit]) ∧
    cleanup ⟨some ⟨some ()⟩, false⟩ =
      Except.ok (⟨some ⟨some ()⟩, false⟩, [TeardownEffect.clientClose]) :=
  ⟨rfl, rfl, rfl⟩

end NoteTaker
